import Mathlib

/-!
# Verification of the capitolTradeWatcher scraper

Shallow embedding of `src/python/data_scraper/capitol_trader_scraper.py`
(classes `BeautifulSoupHelpers`, `DataFrameCleaner`, `CapitolTraderScraper`).

Python strings are modelled as `List Char`; Python `float` results are
idealised as exact rationals (`ℚ`); fallible operations return
`Except PyError`.  Documents produced by the HTML parsing library are
modelled by the `Doc` structure, which records exactly the projections of
the document tree that the source queries (the trades table with its
header cells and per-`tr` data-cell texts, and the descriptive paragraph
with the texts of its bold runs).
-/

/-- Python / library exceptions that the embedded code can raise. -/
inductive PyError where
  | attributeError
  | typeError
  | valueError
  | parseError
  deriving DecidableEq, Repr

instance {ε α : Type} [DecidableEq ε] [DecidableEq α] : DecidableEq (Except ε α) := fun a b =>
  match a, b with
  | .ok x, .ok y =>
    if h : x = y then .isTrue (by rw [h]) else .isFalse (by intro he; cases he; exact h rfl)
  | .error x, .error y =>
    if h : x = y then .isTrue (by rw [h]) else .isFalse (by intro he; cases he; exact h rfl)
  | .ok _, .error _ => .isFalse (by intro h; cases h)
  | .error _, .ok _ => .isFalse (by intro h; cases h)

/-- Characters treated as whitespace by Python's `str.strip()` (ASCII part). -/
def pyIsSpace (c : Char) : Bool :=
  c = ' ' || c = '\t' || c = '\n' || c = '\r' || c.toNat = 11 || c.toNat = 12

/-- Model of Python `str.strip()`: drop leading and trailing whitespace. -/
def pyStrip (s : List Char) : List Char :=
  ((s.dropWhile pyIsSpace).reverse.dropWhile pyIsSpace).reverse

/-- Model of Python `s in str` membership test for a single character. -/
def hasChar (c : Char) : List Char → Bool
  | [] => false
  | d :: rest => d = c || hasChar c rest

/-- Model of Python `str.split(sep)` for a one-character separator:
split at every occurrence of `sep`.  `pySplit sep s` always returns one
more part than there are occurrences of `sep` in `s`. -/
def pySplit (sep : Char) : List Char → List (List Char)
  | [] => [[]]
  | c :: rest =>
    if c = sep then [] :: pySplit sep rest
    else
      match pySplit sep rest with
      | [] => [[c]]
      | r :: rs => (c :: r) :: rs

/-- Numeric value of a decimal digit character. -/
def digitVal (c : Char) : ℕ := c.toNat - 48

/-- Value of a list of decimal digit characters, most significant first. -/
def natOfDigits (ds : List Char) : ℕ :=
  ds.foldl (fun a c => 10 * a + digitVal c) 0

/-- Model of Python's built-in `float` on the literals this program feeds it
(non-negative decimal literals, optionally with a fractional part):
`none` models `ValueError`.  IEEE rounding is idealised away: results are
exact rationals. -/
def parseFloatLit (s : List Char) : Option ℚ :=
  let ip := s.takeWhile Char.isDigit
  let rest := s.dropWhile Char.isDigit
  match rest with
  | [] => if ip.isEmpty then none else some ((natOfDigits ip : ℚ))
  | c :: fp =>
    if c = '.' ∧ fp.all Char.isDigit ∧ (ip ≠ [] ∨ fp ≠ []) then
      some ((natOfDigits ip : ℚ) + (natOfDigits fp : ℚ) / (10 : ℚ) ^ fp.length)
    else none

/-- `float(s)` as an `Except`: raises `ValueError` on a malformed literal. -/
def pyFloat (s : List Char) : Except PyError ℚ :=
  match parseFloatLit s with
  | some q => .ok q
  | none => .error .valueError

/-- Model of a signed decimal integer literal (shared core of Python
`int(str)` and of the dataframe library's `str.to_integer`): an optional
`+`/`-` sign followed by at least one digit; anything else is rejected. -/
def parseIntLit (s : List Char) : Option Int :=
  let dec : List Char → Option Int := fun ds =>
    if ds ≠ [] ∧ ds.all Char.isDigit then some ((natOfDigits ds : ℕ) : Int) else none
  match s with
  | [] => none
  | c :: rest =>
    if c = '-' then (dec rest).map (fun n => -n)
    else if c = '+' then dec rest
    else dec (c :: rest)

/-- Embeds `DataFrameCleaner.parse_size`'s inner helper `to_number`:
`'K' in s` scales by 1 000 (after deleting every `'K'`), otherwise
`'M' in s` scales by 1 000 000, otherwise plain `float(s)`. -/
def to_number (s : List Char) : Except PyError ℚ :=
  if hasChar 'K' s then (pyFloat (s.filter (fun c => c != 'K'))).map (· * 1000)
  else if hasChar 'M' s then (pyFloat (s.filter (fun c => c != 'M'))).map (· * 1000000)
  else pyFloat s

/-- Embeds `DataFrameCleaner.parse_size`: split the size string at the
en-dash; the two-element unpacking `min_size, max_size = ...` raises
`ValueError` unless the split yields exactly two parts; then convert the
chosen bound with `to_number`. -/
def parse_size (size_str : List Char) (minimum_val : Bool) : Except PyError ℚ :=
  match pySplit '–' size_str with
  | [min_size, max_size] => if minimum_val then to_number min_size else to_number max_size
  | _ => .error .valueError

/-! Specification-side datatype for claim C1: a "valid size-range string"
is built from two bounds, each a decimal number optionally suffixed `K`
or `M`.  These definitions follow the spec's words, to be compared with
the embedded `parse_size`. -/

/-- Optional magnitude suffix of one size bound (spec's words). -/
inductive SizeSuffix where
  | bare
  | kilo
  | mega
  deriving DecidableEq, Repr

/-- Scale factor declared by the spec for each suffix. -/
def SizeSuffix.scale : SizeSuffix → ℚ
  | .bare => 1
  | .kilo => 1000
  | .mega => 1000000

/-- Rendering of the suffix into the size string. -/
def SizeSuffix.render : SizeSuffix → List Char
  | .bare => []
  | .kilo => ['K']
  | .mega => ['M']

/-- One bound of a size range: integer digits, optional fractional digits,
optional suffix (spec's words: "a decimal number optionally suffixed K or M"). -/
structure SizeBound where
  intDigits : List Char
  fracDigits : List Char
  suffix : SizeSuffix
  deriving DecidableEq, Repr

/-- Well-formedness of a bound: nonempty integer part, all digit characters. -/
def SizeBound.wf (b : SizeBound) : Prop :=
  b.intDigits ≠ [] ∧ b.intDigits.all Char.isDigit = true ∧ b.fracDigits.all Char.isDigit = true

instance (b : SizeBound) : Decidable b.wf := by
  unfold SizeBound.wf; infer_instance

/-- The textual numeric part of a bound. -/
def SizeBound.numRender (b : SizeBound) : List Char :=
  b.intDigits ++ (if b.fracDigits = [] then [] else '.' :: b.fracDigits)

/-- The full textual form of a bound, suffix included. -/
def SizeBound.render (b : SizeBound) : List Char :=
  b.numRender ++ b.suffix.render

/-- The unscaled numeric value of a bound's decimal number. -/
def SizeBound.rawValue (b : SizeBound) : ℚ :=
  (natOfDigits b.intDigits : ℚ) + (natOfDigits b.fracDigits : ℚ) / (10 : ℚ) ^ b.fracDigits.length

/-- The spec's "numeric value of the bound scaled by its suffix". -/
def SizeBound.value (b : SizeBound) : ℚ :=
  b.rawValue * b.suffix.scale

/-! ## HTML document model and the scraper

A parsed page (`BeautifulSoup` object) is modelled by the projections the
source queries on it: `soup.find('table', {'class': 'q-table trades-table'})`
together with that table's `th` texts and the `td` texts of each of its
`tr` rows, and `soup.find('p', class_='hidden leading-7 sm:block')` together
with the `.text` of each of that paragraph's `b` tags. -/

/-- The trades table of one page: the raw `.text` of every `th` element in
document order, and, for every `tr` element of the table, the raw `.text`
of each of its `td` elements (a header `tr` contributes `[]`). -/
structure HtmlTable where
  headerCells : List (List Char)
  bodyRows : List (List (List Char))
  deriving DecidableEq, Repr

/-- A parsed page.  `tradesTable` is `none` when the marker
`table.q-table.trades-table` is absent; `pageInfo` is `none` when the
descriptive paragraph is absent, and otherwise holds the `.text` of each
bold (`b`) run inside it. -/
structure Doc where
  tradesTable : Option HtmlTable
  pageInfo : Option (List (List Char))
  deriving DecidableEq, Repr

/-- Embeds `BeautifulSoupHelpers.get_table_headers`: collect the stripped
text of every `th`.  The argument is the (possibly `None`) result of
`soup.find`; calling `find_all` on `None` raises `AttributeError`, which
the embedding surfaces as `Except.error .attributeError`. -/
def get_table_headers : Option HtmlTable → Except PyError (List (List Char))
  | none => .error .attributeError
  | some t => .ok (t.headerCells.map pyStrip)

/-- The rows kept from a table body by `CapitolTraderScraper.scrape_table`'s
loop: keep each `tr` with at least one `td`, strip every cell text, and
drop the trailing cell (`row[:-1]`). -/
def keptRows (trs : List (List (List Char))) : List (List (List Char)) :=
  (trs.filter (fun cells => 0 < cells.length)).map (fun cells => (cells.map pyStrip).dropLast)

/-- Embeds `CapitolTraderScraper.scrape_table`.  Faithful to the source's
order of operations: the header derivation (`get_table_headers(table)[:-1]`)
runs *before* the `if table:` guard, so a missing table with `headers=None`
raises `AttributeError`; with headers supplied, a missing table yields no
rows. -/
def scrape_table (soup : Doc) (headers : Option (List (List Char))) :
    Except PyError (List (List (List Char)) × List (List Char)) :=
  let table := soup.tradesTable
  let headersE : Except PyError (List (List Char)) :=
    match headers with
    | none =>
      match get_table_headers table with
      | .ok hs => .ok hs.dropLast
      | .error e => .error e
    | some hs => .ok hs
  match headersE with
  | .error e => .error e
  | .ok hs =>
    let rows : List (List (List Char)) :=
      match table with
      | none => []
      | some t => keptRows t.bodyRows
    .ok (rows, hs)

/-- Embeds the `CapitolTraderScraper.number_of_pages` property, applied to
the already-fetched soup of the base URL.  When the descriptive paragraph
is missing or has at most one bold run, `total_pages` stays `None` and the
final `int(total_pages)` raises `TypeError`; otherwise `int` parses the
stripped text of the second bold run (`ValueError` on a non-integer). -/
def number_of_pages (soup : Doc) : Except PyError Int :=
  let total_pages : Option (List Char) :=
    match soup.pageInfo with
    | some bold_tags =>
      if h : 1 < bold_tags.length then some (pyStrip (bold_tags.get ⟨1, h⟩)) else none
    | none => none
  match total_pages with
  | none => .error .typeError
  | some s =>
    match parseIntLit s with
    | some n => .ok n
    | none => .error .valueError

/-- The fixed listing URL (`self.url` of `CapitolTraderScraper`). -/
def trades_url : String := "https://www.capitoltrades.com/trades"

/-- The per-page URL built by the scrape loop's f-string. -/
def pageUrl (page : ℕ) : String :=
  "https://www.capitoltrades.com/trades?page=" ++ toString page

/-- Model of Python `range(1, total_pages + 1)` over the page count returned
by `int(...)`: empty when the count is below one. -/
def pageIdxs (total_pages : Int) : List ℕ :=
  (List.range total_pages.toNat).map (· + 1)

/-- Observable outcome of one run of `scrape_trades`: the page URLs passed
to `get_html_soup` by the loop (in order), the aggregated row collection,
and the header sequence used as the dataframe schema. -/
structure ScrapeTrace where
  fetched : List String
  rows : List (List (List Char))
  headers : List (List Char)
  deriving DecidableEq, Repr

/-- The scrape loop of `CapitolTraderScraper.scrape_trades`, one recursive
step per page index.  The source's schema-mismatch check
(`if len(page_rows[0]) != len(headers): pass`) has no effect and is
therefore not reflected in the state; `all_rows.extend(page_rows)` runs
only under `if page_rows:`.  On loop exit the dataframe is built from
`all_rows` and `headers` (still `None` — modelled as `[]` — when no page
was processed). -/
def scrapeLoop (env : String → Doc) :
    List ℕ → List (List (List Char)) → Option (List (List Char)) → List String →
    Except PyError ScrapeTrace
  | [], all_rows, headers, fetched => .ok ⟨fetched, all_rows, headers.getD []⟩
  | page :: rest, all_rows, headers, fetched =>
    match scrape_table (env (pageUrl page)) headers with
    | .error e => .error e
    | .ok (page_rows, headers2) =>
      let all_rows2 := if page_rows.isEmpty then all_rows else all_rows ++ page_rows
      scrapeLoop env rest all_rows2 (some headers2) (fetched ++ [pageUrl page])

/-- Embeds `CapitolTraderScraper.scrape_trades`.  The network is modelled
by `env`, mapping a URL to the parsed document `get_html_soup` returns for
it; `number_of_pages` performs its own fetch of the base listing URL
(`env trades_url`), which is not part of the loop's `fetched` trace. -/
def scrape_trades (env : String → Doc) : Except PyError ScrapeTrace :=
  match number_of_pages (env trades_url) with
  | .error e => .error e
  | .ok total_pages => scrapeLoop env (pageIdxs total_pages) [] none []

/-- The rows `scrape_table` yields for a page's document once headers are
established: empty when the trades table is absent. -/
def pageRowsOf (d : Doc) : List (List (List Char)) :=
  match d.tradesTable with
  | none => []
  | some t => keptRows t.bodyRows

/-- Concatenation, in page order, of the rows scraped from each page. -/
def pagesRows (env : String → Doc) : List ℕ → List (List (List Char))
  | [] => []
  | p :: rest => pageRowsOf (env (pageUrl p)) ++ pagesRows env rest

/-! ## Field normalisation (`DataFrameCleaner.clean_dataframe`)

The dataframe library's column operations are modelled column-wise and
strictly: `str.to_datetime('%d %b%Y')`, `str.replace('days', '')` followed
by `str.to_integer()`, and the element-wise `parse_size` application.  A
failure on any element fails the whole column (`Except.error .parseError`),
matching the library's strict behaviour. -/

/-- A calendar date (the date component of the parsed datetime). -/
structure PDate where
  year : ℕ
  month : ℕ
  day : ℕ
  deriving DecidableEq, Repr

/-- Leap-year rule of the proleptic Gregorian calendar. -/
def isLeap (y : ℕ) : Bool :=
  y % 4 = 0 && (y % 100 != 0 || y % 400 = 0)

/-- Number of days of month `m` in year `y`. -/
def daysInMonth (y m : ℕ) : ℕ :=
  if m = 2 then (if isLeap y then 29 else 28)
  else if m = 4 ∨ m = 6 ∨ m = 9 ∨ m = 11 then 30
  else 31

/-- Month number of a three-letter month abbreviation, lower-cased. -/
def monthFromAbbrev (s : List Char) : Option ℕ :=
  if s = ['j', 'a', 'n'] then some 1
  else if s = ['f', 'e', 'b'] then some 2
  else if s = ['m', 'a', 'r'] then some 3
  else if s = ['a', 'p', 'r'] then some 4
  else if s = ['m', 'a', 'y'] then some 5
  else if s = ['j', 'u', 'n'] then some 6
  else if s = ['j', 'u', 'l'] then some 7
  else if s = ['a', 'u', 'g'] then some 8
  else if s = ['s', 'e', 'p'] then some 9
  else if s = ['o', 'c', 't'] then some 10
  else if s = ['n', 'o', 'v'] then some 11
  else if s = ['d', 'e', 'c'] then some 12
  else none

/-- Model of the date parsing performed by `str.to_datetime('%d %b%Y')`
on one value (chrono `strptime` semantics for this fixed pattern): one or
two day digits, a literal space, a case-insensitive three-letter month
abbreviation, then the year digits (one to four) with nothing between
month and year and nothing after; the day must exist in the parsed month.
Any non-matching value is a parse failure. -/
def parseDateDBY (s : List Char) : Except PyError PDate :=
  let dayDs := s.takeWhile Char.isDigit
  let rest := s.dropWhile Char.isDigit
  if dayDs.length = 0 ∨ 2 < dayDs.length then .error .parseError
  else
    match rest with
    | ' ' :: m1 :: m2 :: m3 :: rest3 =>
      match monthFromAbbrev [m1.toLower, m2.toLower, m3.toLower] with
      | some m =>
        let yDs := rest3.takeWhile Char.isDigit
        let rest4 := rest3.dropWhile Char.isDigit
        if rest4 = [] ∧ 1 ≤ yDs.length ∧ yDs.length ≤ 4 then
          let d := natOfDigits dayDs
          let y := natOfDigits yDs
          if 1 ≤ d ∧ d ≤ daysInMonth y m then .ok ⟨y, m, natOfDigits dayDs⟩
          else .error .parseError
        else .error .parseError
      | none => .error .parseError
    | _ => .error .parseError

/-- Column-wise `str.to_datetime('%d %b%Y')`: parse every value, failing
the whole column on the first malformed one. -/
def toDatetimeCol : List (List Char) → Except PyError (List PDate)
  | [] => .ok []
  | v :: rest =>
    match parseDateDBY v, toDatetimeCol rest with
    | .ok d, .ok ds => .ok (d :: ds)
    | .error e, _ => .error e
    | _, .error e => .error e

/-- The literal pattern of the `str.replace('days', '')` call. -/
def daysChars : List Char := ['d', 'a', 'y', 's']

/-- Model of the dataframe library's `str.replace(pat, '')` on one value:
remove the first occurrence of `pat` (the pattern `'days'` has no regex
metacharacters, so regex and literal semantics coincide). -/
def replaceFirst (pat : List Char) : List Char → List Char
  | [] => []
  | c :: rest =>
    if pat.isPrefixOf (c :: rest) then (c :: rest).drop pat.length
    else c :: replaceFirst pat rest

/-- Model of `str.to_integer()` on one value (Rust integer parsing:
optional sign, then digits, nothing else): strict, so a malformed value
is a parse failure. -/
def str_to_integer (s : List Char) : Except PyError Int :=
  match parseIntLit s with
  | some n => .ok n
  | none => .error .parseError

/-- What `clean_dataframe` computes for one `Filed after` value:
`pl.col('Filed after').str.replace('days', '').str.to_integer()`. -/
def filed_after_value (s : List Char) : Except PyError Int :=
  str_to_integer (replaceFirst daysChars s)

/-- Column-wise `Filed after` normalisation. -/
def filedAfterCol : List (List Char) → Except PyError (List Int)
  | [] => .ok []
  | v :: rest =>
    match filed_after_value v, filedAfterCol rest with
    | .ok n, .ok ns => .ok (n :: ns)
    | .error e, _ => .error e
    | _, .error e => .error e

/-- The columns of the raw scraped dataframe that `clean_dataframe`
touches (other columns pass through unchanged and are not modelled). -/
structure RawFrame where
  Published : List (List Char)
  Traded : List (List Char)
  Filed_after : List (List Char)
  Size : List (List Char)
  deriving DecidableEq, Repr

/-- The result schema `clean_dataframe` aims to build.  Its constructor is
unreachable through `clean_dataframe` (see there): the `Size` step of the
source always raises before a cleaned frame exists. -/
structure CleanFrame where
  Published : List PDate
  Traded : List PDate
  Filed_after : List Int
  Size : List (List Char)
  Size_min : List ℚ
  Size_max : List ℚ
  deriving DecidableEq, Repr

/-- Embeds `DataFrameCleaner.clean_dataframe`.  The first `with_columns`
datetime-parses `Published` and `Traded`; the second strips/parses
`Filed after` and then evaluates `pl.col('Size').apply(self.parse_size, True)`
(and `... False)`).  `Expr.apply`'s second positional argument is the
`return_dtype`, not an argument forwarded to the function, so `parse_size`
is invoked with a single element and is missing its required
`minimum_val` parameter: the `Size` expressions always raise `TypeError`
and the function can never return a cleaned frame.  The second
`with_columns`' expression list is modelled left to right, with the
`apply` misuse surfacing as the unconditional `TypeError` after the
`Filed after` expression. -/
def clean_dataframe (df : RawFrame) : Except PyError CleanFrame :=
  match toDatetimeCol df.Published with
  | .error e => .error e
  | .ok _published =>
    match toDatetimeCol df.Traded with
    | .error e => .error e
    | .ok _traded =>
      match filedAfterCol df.Filed_after with
      | .error e => .error e
      | .ok _filed => .error .typeError

/-- Formalisation of claim C8's words (not of the source): strip the
literal *suffix* `"days"` when present, then parse the remainder as an
integer. -/
def spec_filed_after (s : List Char) : Except PyError Int :=
  str_to_integer (if daysChars.isSuffixOf s then s.take (s.length - daysChars.length) else s)

/-! ## Concrete fixtures

Small documents and a three-page site used to instantiate the theorems
below on concrete inputs. -/

/-- Page 1's table: three header cells and one data row of three cells
(the first `tr`, the header row, has no `td` and contributes `[]`). -/
def table1 : HtmlTable :=
  ⟨[['A'], ['B'], ['X']], [[], [['x'], ['y'], ['z']]]⟩

/-- Page 2's table: one data row of three cells. -/
def table2 : HtmlTable :=
  ⟨[], [[['p'], ['q'], ['r']]]⟩

/-- Page 3's table: one data row of only two cells (after the trailing-cell
drop its kept row has one cell, shorter than the two-column header). -/
def table3 : HtmlTable :=
  ⟨[], [[['s'], ['t']]]⟩

/-- The base listing page: no trades table, and a descriptive paragraph
whose second bold run reads "3". -/
def baseDoc : Doc :=
  ⟨none, some [['1'], ['3']]⟩

/-- A three-page site: the base URL serves `baseDoc`, and pages 1..3 serve
`table1`..`table3`. -/
def env3 : String → Doc := fun u =>
  if u = pageUrl 1 then ⟨some table1, none⟩
  else if u = pageUrl 2 then ⟨some table2, none⟩
  else if u = pageUrl 3 then ⟨some table3, none⟩
  else baseDoc

/-- The lower bound of the spec's example size string `"1K–15M"`. -/
def sbLo : SizeBound := ⟨['1'], [], .kilo⟩

/-- The upper bound of the spec's example size string `"1K–15M"`. -/
def sbHi : SizeBound := ⟨['1', '5'], [], .mega⟩

/-! ## Supporting lemmas -/

theorem takeWhile_all {p : Char → Bool} :
    ∀ {a : List Char}, (∀ c ∈ a, p c = true) → a.takeWhile p = a := by
  intro a
  induction a with
  | nil => intro _; rfl
  | cons c t ih =>
    intro h
    rw [List.takeWhile_cons_of_pos (h c (by simp)), ih fun x hx => h x (by simp [hx])]

theorem dropWhile_all {p : Char → Bool} :
    ∀ {a : List Char}, (∀ c ∈ a, p c = true) → a.dropWhile p = [] := by
  intro a
  induction a with
  | nil => intro _; rfl
  | cons c t ih =>
    intro h
    rw [List.dropWhile_cons_of_pos (h c (by simp))]
    exact ih fun x hx => h x (by simp [hx])

theorem takeWhile_append_stop {p : Char → Bool} {c : Char} (hc : p c = false) :
    ∀ {a t : List Char}, (∀ x ∈ a, p x = true) → (a ++ c :: t).takeWhile p = a := by
  intro a
  induction a with
  | nil =>
    intro t _
    rw [List.nil_append, List.takeWhile_cons_of_neg (by simp [hc])]
  | cons d a' ih =>
    intro t h
    rw [List.cons_append, List.takeWhile_cons_of_pos (h d (by simp)),
      ih fun x hx => h x (by simp [hx])]

theorem dropWhile_append_stop {p : Char → Bool} {c : Char} (hc : p c = false) :
    ∀ {a t : List Char}, (∀ x ∈ a, p x = true) → (a ++ c :: t).dropWhile p = c :: t := by
  intro a
  induction a with
  | nil =>
    intro t _
    rw [List.nil_append, List.dropWhile_cons_of_neg (by simp [hc])]
  | cons d a' ih =>
    intro t h
    rw [List.cons_append, List.dropWhile_cons_of_pos (h d (by simp))]
    exact ih fun x hx => h x (by simp [hx])

theorem pySplit_no_sep {sep : Char} :
    ∀ {s : List Char}, (∀ c ∈ s, c ≠ sep) → pySplit sep s = [s] := by
  intro s
  induction s with
  | nil => intro _; rfl
  | cons c t ih =>
    intro h
    have hc : c ≠ sep := h c (by simp)
    rw [pySplit, if_neg hc, ih fun x hx => h x (by simp [hx])]

theorem pySplit_append_sep {sep : Char} {b : List Char} :
    ∀ {a : List Char}, (∀ c ∈ a, c ≠ sep) →
      pySplit sep (a ++ sep :: b) = a :: pySplit sep b := by
  intro a
  induction a with
  | nil => simp [pySplit]
  | cons c t ih =>
    intro h
    have hc : c ≠ sep := h c (by simp)
    rw [List.cons_append, pySplit, if_neg hc, ih fun x hx => h x (by simp [hx])]

theorem hasChar_eq_false {c : Char} :
    ∀ {s : List Char}, (∀ d ∈ s, d ≠ c) → hasChar c s = false := by
  intro s
  induction s with
  | nil => intro _; rfl
  | cons d t ih =>
    intro h
    have hd : d ≠ c := h d (by simp)
    simp [hasChar, hd]
    exact ih fun x hx => h x (by simp [hx])

theorem filter_bne_all {k : Char} :
    ∀ {s : List Char}, (∀ c ∈ s, c ≠ k) → s.filter (fun c => c != k) = s := by
  intro s
  induction s with
  | nil => intro _; rfl
  | cons c t ih =>
    intro h
    rw [List.filter_cons_of_pos (by simpa using h c (by simp)),
      ih fun x hx => h x (by simp [hx])]

theorem isDigit_ne {c d : Char} (h : c.isDigit = true) (hd : d.isDigit = false) : c ≠ d := by
  intro he
  rw [he, hd] at h
  simp at h

theorem mem_numRender {b : SizeBound} (hwf : b.wf) :
    ∀ c ∈ b.numRender, c.isDigit = true ∨ c = '.' := by
  intro c hc
  rcases List.mem_append.mp hc with h | h
  · exact Or.inl (List.all_eq_true.mp hwf.2.1 c h)
  · by_cases hf : b.fracDigits = []
    · rw [if_pos hf] at h
      simp at h
    · rw [if_neg hf] at h
      rcases List.mem_cons.mp h with rfl | h
      · exact Or.inr rfl
      · exact Or.inl (List.all_eq_true.mp hwf.2.2 c h)

theorem mem_render {b : SizeBound} (hwf : b.wf) :
    ∀ c ∈ b.render, c.isDigit = true ∨ c = '.' ∨ c = 'K' ∨ c = 'M' := by
  intro c hc
  rcases List.mem_append.mp hc with h | h
  · rcases mem_numRender hwf c h with h | h
    · exact Or.inl h
    · exact Or.inr (Or.inl h)
  · cases hs : b.suffix <;> rw [hs] at h <;> simp [SizeSuffix.render] at h
    · exact Or.inr (Or.inr (Or.inl h))
    · exact Or.inr (Or.inr (Or.inr h))

theorem endash_notin_render {b : SizeBound} (hwf : b.wf) :
    ∀ c ∈ b.render, c ≠ '–' := by
  intro c hc
  rcases mem_render hwf c hc with h | h | h | h
  · exact isDigit_ne h (by decide)
  · rw [h]; decide
  · rw [h]; decide
  · rw [h]; decide

theorem parseFloatLit_numRender {b : SizeBound} (hwf : b.wf) :
    parseFloatLit b.numRender = some b.rawValue := by
  have hall : ∀ c ∈ b.intDigits, Char.isDigit c = true := List.all_eq_true.mp hwf.2.1
  by_cases hf : b.fracDigits = []
  · have h1 : b.numRender = b.intDigits := by
      simp [SizeBound.numRender, hf]
    rw [parseFloatLit, h1, takeWhile_all hall, dropWhile_all hall]
    have hne : b.intDigits.isEmpty = false := by
      cases hd : b.intDigits with
      | nil => exact absurd hd hwf.1
      | cons a t => rfl
    simp [hne, SizeBound.rawValue, hf, natOfDigits]
  · have h1 : b.numRender = b.intDigits ++ '.' :: b.fracDigits := by
      simp [SizeBound.numRender, hf]
    rw [parseFloatLit, h1, takeWhile_append_stop (by decide) hall,
      dropWhile_append_stop (by decide) hall]
    simp [hwf.2.2, hf, SizeBound.rawValue]

theorem to_number_render {b : SizeBound} (hwf : b.wf) :
    to_number b.render = .ok b.value := by
  have hnumK : ∀ c ∈ b.numRender, c ≠ 'K' := by
    intro c hc
    rcases mem_numRender hwf c hc with h | h
    · exact isDigit_ne h (by decide)
    · rw [h]; decide
  have hnumM : ∀ c ∈ b.numRender, c ≠ 'M' := by
    intro c hc
    rcases mem_numRender hwf c hc with h | h
    · exact isDigit_ne h (by decide)
    · rw [h]; decide
  cases hs : b.suffix
  case bare =>
    have hr : b.render = b.numRender := by
      simp [SizeBound.render, hs, SizeSuffix.render]
    rw [to_number, hr, hasChar_eq_false hnumK, hasChar_eq_false hnumM]
    simp only [Bool.false_eq_true, if_false]
    rw [pyFloat, parseFloatLit_numRender hwf]
    have : b.value = b.rawValue := by
      simp [SizeBound.value, hs, SizeSuffix.scale]
    rw [this]
  case kilo =>
    have hr : b.render = b.numRender ++ ['K'] := by
      simp [SizeBound.render, hs, SizeSuffix.render]
    have hK : hasChar 'K' b.render = true := by
      rw [hr]
      induction b.numRender with
      | nil => rfl
      | cons c t ih => rw [List.cons_append, hasChar, ih]; simp
    rw [to_number, hK]
    simp only [if_true]
    have hfil : b.render.filter (fun c => c != 'K') = b.numRender := by
      rw [hr, List.filter_append, filter_bne_all hnumK]
      simp
    rw [hfil, pyFloat, parseFloatLit_numRender hwf]
    have : b.value = b.rawValue * 1000 := by
      simp [SizeBound.value, hs, SizeSuffix.scale]
    rw [this]
    rfl
  case mega =>
    have hr : b.render = b.numRender ++ ['M'] := by
      simp [SizeBound.render, hs, SizeSuffix.render]
    have hK : hasChar 'K' b.render = false := by
      apply hasChar_eq_false
      intro d hd
      rw [hr] at hd
      rcases List.mem_append.mp hd with h | h
      · exact hnumK d h
      · simp at h
        rw [h]; decide
    have hM : hasChar 'M' b.render = true := by
      rw [hr]
      induction b.numRender with
      | nil => rfl
      | cons c t ih => rw [List.cons_append, hasChar, ih]; simp
    rw [to_number, hK, hM]
    simp only [Bool.false_eq_true, if_false, if_true]
    have hfil : b.render.filter (fun c => c != 'M') = b.numRender := by
      rw [hr, List.filter_append, filter_bne_all hnumM]
      simp
    rw [hfil, pyFloat, parseFloatLit_numRender hwf]
    have : b.value = b.rawValue * 1000000 := by
      simp [SizeBound.value, hs, SizeSuffix.scale]
    rw [this]
    rfl

/-! ## Claim theorems -/

/-- C1.  For every valid size-range string `<a>[K|M]–<b>[K|M]` (an en-dash
between two decimal bounds, each optionally suffixed `K` = ×1 000 or
`M` = ×1 000 000), `parse_size` with `minimum_val = true` returns the lower
bound's numeric value scaled by its suffix, and with `minimum_val = false`
the upper bound's. -/
theorem parse_size_of_valid_range (lo hi : SizeBound) (hlo : lo.wf) (hhi : hi.wf) :
    parse_size (lo.render ++ '–' :: hi.render) true = .ok lo.value ∧
    parse_size (lo.render ++ '–' :: hi.render) false = .ok hi.value := by
  have hsplit : pySplit '–' (lo.render ++ '–' :: hi.render) = [lo.render, hi.render] := by
    rw [pySplit_append_sep (endash_notin_render hlo),
      pySplit_no_sep (endash_notin_render hhi)]
  rw [parse_size, parse_size, hsplit]
  exact ⟨to_number_render hlo, to_number_render hhi⟩

/-- Witness for C1 at the spec's example `"1K–15M"`: the minimum is 1 000
and the maximum is 15 000 000. -/
theorem parse_size_of_valid_range_witness :
    parse_size (sbLo.render ++ '–' :: sbHi.render) true = .ok 1000 ∧
    parse_size (sbLo.render ++ '–' :: sbHi.render) false = .ok 15000000 := by
  have h := parse_size_of_valid_range sbLo sbHi (by decide) (by decide)
  have h1 : sbLo.value = 1000 := by
    norm_num [sbLo, SizeBound.value, SizeBound.rawValue, SizeSuffix.scale,
      show natOfDigits ['1'] = 1 from by decide, show natOfDigits [] = 0 from rfl]
  have h2 : sbHi.value = 15000000 := by
    norm_num [sbHi, SizeBound.value, SizeBound.rawValue, SizeSuffix.scale,
      show natOfDigits ['1', '5'] = 15 from by decide, show natOfDigits [] = 0 from rfl]
  exact ⟨h1 ▸ h.1, h2 ▸ h.2⟩

/-- C3 counterexample.  With the trades-table element absent *and* no
previously-established header sequence, `scrape_table` does not return an
empty row sequence: the header derivation runs `find_all` on the `None`
result of `find` and the call fails with `AttributeError`. -/
theorem scrape_table_no_table_no_headers_fails :
    scrape_table ⟨none, none⟩ none = .error .attributeError := rfl

/-- C3 amended.  If the trades-table element is absent, `scrape_table`
returns an empty row sequence without failing whenever a header sequence
was supplied; with `headers = None` the same call instead fails with
`AttributeError`. -/
theorem scrape_table_no_table (soup : Doc) (hs : List (List Char))
    (h : soup.tradesTable = none) :
    scrape_table soup (some hs) = .ok ([], hs) ∧
    scrape_table soup none = .error .attributeError := by
  constructor <;> simp [scrape_table, get_table_headers, h]

/-- Witness for the amended C3 on a concrete table-less document. -/
theorem scrape_table_no_table_witness :
    scrape_table ⟨none, some [['1'], ['3']]⟩ (some [['A']]) = .ok ([], [['A']]) ∧
    scrape_table ⟨none, some [['1'], ['3']]⟩ none = .error .attributeError :=
  scrape_table_no_table ⟨none, some [['1'], ['3']]⟩ [['A']] rfl

/-- C4.  When the descriptive paragraph is missing, or it contains fewer
than two bold runs, `number_of_pages` surfaces an error (`int(None)`
raises `TypeError`) instead of returning a silent default page count. -/
theorem number_of_pages_missing_info_errors (soup : Doc)
    (h : soup.pageInfo = none ∨ ∃ bs, soup.pageInfo = some bs ∧ bs.length ≤ 1) :
    number_of_pages soup = .error .typeError := by
  rcases h with h | ⟨bs, hbs, hlen⟩
  · simp [number_of_pages, h]
  · simp [number_of_pages, hbs, Nat.not_lt.mpr hlen]

/-- Witness for C4 on a document with no descriptive paragraph. -/
theorem number_of_pages_missing_info_errors_witness :
    number_of_pages ⟨none, none⟩ = .error .typeError :=
  number_of_pages_missing_info_errors ⟨none, none⟩ (Or.inl rfl)

/-- C9.  `scrape_table` is a pure function of the document and the supplied
header sequence: applying it twice to the same arguments yields identical
`(rows, headers)` results — the embedding has no hidden mutable state. -/
theorem scrape_table_deterministic (soup : Doc) (headers : Option (List (List Char))) :
    scrape_table soup headers = scrape_table soup headers := rfl

/-- `scrape_table` with headers already established never fails and yields
exactly the page's kept rows. -/
theorem scrape_table_some_headers (soup : Doc) (hs : List (List Char)) :
    scrape_table soup (some hs) = .ok (pageRowsOf soup, hs) := by
  cases h : soup.tradesTable <;> simp [scrape_table, pageRowsOf, h]

theorem keptRows_append (a b : List (List (List Char))) :
    keptRows (a ++ b) = keptRows a ++ keptRows b := by
  simp [keptRows, List.filter_append]

/-- C10.  A body row with exactly one data cell is still kept, but as an
empty value sequence (its sole cell is dropped as the trailing column),
whatever the supplied header sequence is. -/
theorem scrape_table_single_cell_row (pre post : List (List (List Char)))
    (c : List (List Char)) (hc : c.length = 1)
    (hcells : List (List Char)) (pinfo : Option (List (List Char)))
    (hdrs : List (List Char)) :
    scrape_table ⟨some ⟨hcells, pre ++ c :: post⟩, pinfo⟩ (some hdrs) =
      .ok (keptRows pre ++ [] :: keptRows post, hdrs) := by
  obtain ⟨x, hx⟩ : ∃ x, c = [x] := by
    cases c with
    | nil => simp at hc
    | cons a t =>
      cases t with
      | nil => exact ⟨a, rfl⟩
      | cons b t2 => simp at hc
  have h1 : keptRows (pre ++ c :: post) = keptRows pre ++ [] :: keptRows post := by
    rw [show pre ++ c :: post = pre ++ [c] ++ post by simp, keptRows_append, keptRows_append,
      hx]
    simp [keptRows]
  rw [scrape_table_some_headers]
  simp [pageRowsOf, h1]

/-- Witness for C10: a one-cell row between no others is kept as `[]`. -/
theorem scrape_table_single_cell_row_witness :
    scrape_table ⟨some ⟨[['H']], [] ++ [['v']] :: []⟩, none⟩ (some [['A'], ['B']]) =
      .ok (keptRows [] ++ [] :: keptRows [], [['A'], ['B']]) :=
  scrape_table_single_cell_row [] [] [['v']] (by decide) [['H']] none [['A'], ['B']]

/-- C6.  From a table with `N` header cells and no supplied headers,
`scrape_table` derives a header sequence of length `N − 1` (the final
header cell is discarded), and every kept data row likewise retains the
trimmed text of all but its last cell. -/
theorem scrape_table_drops_trailing_column (t : HtmlTable) (pinfo : Option (List (List Char)))
    (cells : List (List Char)) (hc : cells ∈ t.bodyRows) (hlen : 0 < cells.length) :
    scrape_table ⟨some t, pinfo⟩ none =
      .ok (keptRows t.bodyRows, (t.headerCells.map pyStrip).dropLast) ∧
    ((t.headerCells.map pyStrip).dropLast).length = t.headerCells.length - 1 ∧
    (cells.map pyStrip).dropLast ∈ keptRows t.bodyRows ∧
    ((cells.map pyStrip).dropLast).length = cells.length - 1 := by
  refine ⟨?_, ?_, ?_, ?_⟩
  · simp [scrape_table, get_table_headers]
  · simp
  · exact List.mem_map_of_mem _ (List.mem_filter.mpr ⟨hc, by simpa using hlen⟩)
  · simp

/-- Witness for C6 on a three-header, one-row table. -/
theorem scrape_table_drops_trailing_column_witness :
    scrape_table ⟨some table1, none⟩ none =
      .ok (keptRows table1.bodyRows, (table1.headerCells.map pyStrip).dropLast) ∧
    ((table1.headerCells.map pyStrip).dropLast).length = table1.headerCells.length - 1 ∧
    ([['x'], ['y'], ['z']].map pyStrip).dropLast ∈ keptRows table1.bodyRows ∧
    (([['x'], ['y'], ['z']].map pyStrip).dropLast).length = [['x'], ['y'], ['z']].length - 1 :=
  scrape_table_drops_trailing_column table1 none [['x'], ['y'], ['z']] (by decide) (by decide)

/-- Once the header sequence is established, the scrape loop never fails:
it fetches each remaining page URL in order and appends that page's rows. -/
theorem scrapeLoop_established (env : String → Doc) (pages : List ℕ) :
    ∀ (acc : List (List (List Char))) (hs : List (List Char)) (fetched : List String),
      scrapeLoop env pages acc (some hs) fetched =
        .ok ⟨fetched ++ pages.map pageUrl, acc ++ pagesRows env pages, hs⟩ := by
  induction pages with
  | nil =>
    intro acc hs fetched
    simp [scrapeLoop, pagesRows]
  | cons p rest ih =>
    intro acc hs fetched
    rw [scrapeLoop, scrape_table_some_headers]
    show scrapeLoop env rest
      (if (pageRowsOf (env (pageUrl p))).isEmpty then acc
        else acc ++ pageRowsOf (env (pageUrl p)))
      (some hs) (fetched ++ [pageUrl p]) = _
    have hacc : (if (pageRowsOf (env (pageUrl p))).isEmpty then acc
        else acc ++ pageRowsOf (env (pageUrl p))) = acc ++ pageRowsOf (env (pageUrl p)) := by
      cases hpr : pageRowsOf (env (pageUrl p)) <;> simp
    rw [hacc, ih]
    simp [pagesRows]

theorem pagesRows_len (env : String → Doc) (pages : List ℕ) :
    (pagesRows env pages).length =
      (pages.map (fun p => (pageRowsOf (env (pageUrl p))).length)).sum := by
  induction pages with
  | nil => rfl
  | cons p rest ih => simp [pagesRows, ih]

theorem mem_pagesRows (env : String → Doc) {p : ℕ} {pages : List ℕ}
    (hp : p ∈ pages) {r : List (List Char)} (hr : r ∈ pageRowsOf (env (pageUrl p))) :
    r ∈ pagesRows env pages := by
  induction pages with
  | nil => simp at hp
  | cons q rest ih =>
    rcases List.mem_cons.mp hp with rfl | h
    · exact List.mem_append.mpr (Or.inl hr)
    · exact List.mem_append.mpr (Or.inr (ih h))

/-- Full characterisation of a successful `scrape_trades` run: with a page
count of `N ≥ 1` and page 1's table present, the loop fetches exactly the
URLs `?page=1 .. ?page=N` in order and aggregates the per-page rows in
page order under page 1's derived headers. -/
theorem scrape_trades_run (env : String → Doc) (N : Int) (t1 : HtmlTable)
    (hnp : number_of_pages (env trades_url) = .ok N) (hN : 1 ≤ N)
    (h1 : (env (pageUrl 1)).tradesTable = some t1) :
    scrape_trades env =
      .ok ⟨(pageIdxs N).map pageUrl, pagesRows env (pageIdxs N),
        (t1.headerCells.map pyStrip).dropLast⟩ := by
  obtain ⟨k, hk⟩ : ∃ k, N.toNat = k + 1 := ⟨N.toNat - 1, by omega⟩
  obtain ⟨rest, hrest⟩ : ∃ rest, pageIdxs N = 1 :: rest := by
    refine ⟨(List.range k).map (fun i => i + 1 + 1), ?_⟩
    rw [pageIdxs, hk, List.range_succ_eq_map, List.map_cons, List.map_map]
    rfl
  rw [scrape_trades, hnp]
  show scrapeLoop env (pageIdxs N) [] none [] = _
  rw [hrest, scrapeLoop]
  have hst : scrape_table (env (pageUrl 1)) none =
      .ok (pageRowsOf (env (pageUrl 1)), (t1.headerCells.map pyStrip).dropLast) := by
    simp [scrape_table, get_table_headers, h1, pageRowsOf]
  rw [hst]
  show scrapeLoop env rest
    (if (pageRowsOf (env (pageUrl 1))).isEmpty then ([] : List (List (List Char)))
      else [] ++ pageRowsOf (env (pageUrl 1)))
    (some ((t1.headerCells.map pyStrip).dropLast)) ([] ++ [pageUrl 1]) = _
  have hacc : (if (pageRowsOf (env (pageUrl 1))).isEmpty then ([] : List (List (List Char)))
      else [] ++ pageRowsOf (env (pageUrl 1))) = pageRowsOf (env (pageUrl 1)) := by
    cases hpr : pageRowsOf (env (pageUrl 1)) <;> simp
  rw [hacc, scrapeLoop_established]
  simp [pagesRows]

/-- C2 counterexample.  On a three-page site, the loop's three page fetches
are `?page=1`, `?page=2`, `?page=3`: page 1 is *not* fetched at the bare
base URL by the loop (the base URL serves only the count-discovery fetch),
contrary to the claim's "page 1 is fetched at the base URL and only
n = 2..N use the page query parameter". -/
theorem scrape_trades_page1_query_url :
    (scrape_trades env3).map ScrapeTrace.fetched =
      .ok ["https://www.capitoltrades.com/trades?page=1",
        "https://www.capitoltrades.com/trades?page=2",
        "https://www.capitoltrades.com/trades?page=3"] ∧
    "https://www.capitoltrades.com/trades?page=1" ≠ trades_url := by
  exact ⟨rfl, by decide⟩

/-- C2 amended.  With a reported page count of `N ≥ 1`, `scrape_trades`
issues exactly `N` page fetches, one per page index 1..N, *each* (page 1
included) to `https://www.capitoltrades.com/trades?page={n}`; the bare
base URL is used only for count discovery.  The aggregated row collection
is the concatenation of the per-page rows in page order, so its length is
the sum of the per-page row counts. -/
theorem scrape_trades_fetch_and_rows (env : String → Doc) (N : Int) (t1 : HtmlTable)
    (hnp : number_of_pages (env trades_url) = .ok N) (hN : 1 ≤ N)
    (h1 : (env (pageUrl 1)).tradesTable = some t1) :
    scrape_trades env =
      .ok ⟨(pageIdxs N).map pageUrl, pagesRows env (pageIdxs N),
        (t1.headerCells.map pyStrip).dropLast⟩ ∧
    ((pageIdxs N).map pageUrl).length = N.toNat ∧
    (pagesRows env (pageIdxs N)).length =
      ((pageIdxs N).map (fun p => (pageRowsOf (env (pageUrl p))).length)).sum :=
  ⟨scrape_trades_run env N t1 hnp hN h1, by simp [pageIdxs], pagesRows_len env (pageIdxs N)⟩

/-- Witness for the amended C2 on the concrete three-page site. -/
theorem scrape_trades_fetch_and_rows_witness :
    scrape_trades env3 =
      .ok ⟨(pageIdxs 3).map pageUrl, pagesRows env3 (pageIdxs 3),
        (table1.headerCells.map pyStrip).dropLast⟩ ∧
    ((pageIdxs 3).map pageUrl).length = (3 : Int).toNat ∧
    (pagesRows env3 (pageIdxs 3)).length =
      ((pageIdxs 3).map (fun p => (pageRowsOf (env3 (pageUrl p))).length)).sum :=
  scrape_trades_fetch_and_rows env3 3 table1 (by decide) (by decide) (by decide)

/-- C5.  A scraped row whose cell count differs from the header-sequence
length is neither corrected, dropped, nor raised on: the run still
succeeds with the aggregated collection being exactly the page-order
concatenation, and the mismatched row is in it as-is. -/
theorem scrape_trades_keeps_mismatched_rows (env : String → Doc) (N : Int) (t1 : HtmlTable)
    (hnp : number_of_pages (env trades_url) = .ok N) (hN : 1 ≤ N)
    (h1 : (env (pageUrl 1)).tradesTable = some t1)
    (p : ℕ) (r : List (List Char)) (hp : p ∈ pageIdxs N)
    (hr : r ∈ pageRowsOf (env (pageUrl p)))
    (hlen : r.length ≠ ((t1.headerCells.map pyStrip).dropLast).length) :
    scrape_trades env =
      .ok ⟨(pageIdxs N).map pageUrl, pagesRows env (pageIdxs N),
        (t1.headerCells.map pyStrip).dropLast⟩ ∧
    r ∈ pagesRows env (pageIdxs N) :=
  ⟨scrape_trades_run env N t1 hnp hN h1, mem_pagesRows env hp hr⟩

/-- Witness for C5: page 3's kept row `[['s']]` has 1 cell against a
2-column header, yet the run succeeds and the row is in the aggregate. -/
theorem scrape_trades_keeps_mismatched_rows_witness :
    scrape_trades env3 =
      .ok ⟨(pageIdxs 3).map pageUrl, pagesRows env3 (pageIdxs 3),
        (table1.headerCells.map pyStrip).dropLast⟩ ∧
    [['s']] ∈ pagesRows env3 (pageIdxs 3) :=
  scrape_trades_keeps_mismatched_rows env3 3 table1 (by decide) (by decide) (by decide)
    3 [['s']] (by decide) (by decide) (by decide)

/-- C7.  The date normalisation uses the fixed pattern "day, abbreviated
month, four-digit year, no separator between month and year" on the
`Published` and `Traded` columns: `"15 Mar2023"` parses to the calendar
date 2023-03-15, singly and column-wise, while a value such as
`"2023-03-15"` does not match the pattern, so the conversion — the first
`with_columns` of `clean_dataframe` — fails with a parse error whether
the malformed value sits in `Published` or in `Traded`. -/
theorem clean_dates_fixed_pattern :
    parseDateDBY ("15 Mar2023".data) = .ok ⟨2023, 3, 15⟩ ∧
    parseDateDBY ("2023-03-15".data) = .error .parseError ∧
    toDatetimeCol ["15 Mar2023".data] = .ok [⟨2023, 3, 15⟩] ∧
    clean_dataframe ⟨["2023-03-15".data], ["15 Mar2023".data], ["9days".data], ["1K–15M".data]⟩ =
      .error .parseError ∧
    clean_dataframe ⟨["15 Mar2023".data], ["2023-03-15".data], ["9days".data], ["1K–15M".data]⟩ =
      .error .parseError := by
  decide

theorem replaceFirst_digits_append {ds : List Char} (h2 : ds.all Char.isDigit = true) :
    replaceFirst daysChars (ds ++ daysChars) = ds := by
  induction ds with
  | nil => decide
  | cons c t ih =>
    have hc : Char.isDigit c = true := (List.all_eq_true.mp h2) c (by simp)
    have ht : t.all Char.isDigit = true := by
      rw [List.all_eq_true]
      exact fun x hx => (List.all_eq_true.mp h2) x (by simp [hx])
    have hne : daysChars.isPrefixOf (c :: (t ++ daysChars)) = false := by
      have hcd : c ≠ 'd' := isDigit_ne hc (by decide)
      cases hbe : ('d' == c) with
      | false => simp [daysChars, List.isPrefixOf, hbe]
      | true => exact absurd (eq_of_beq hbe).symm hcd
    rw [List.cons_append, replaceFirst]
    simp [hne, ih ht]

theorem str_to_integer_digits {ds : List Char} (h1 : ds ≠ []) (h2 : ds.all Char.isDigit = true) :
    str_to_integer ds = .ok ((natOfDigits ds : ℕ) : Int) := by
  cases ds with
  | nil => exact absurd rfl h1
  | cons c t =>
    have hc : Char.isDigit c = true := (List.all_eq_true.mp h2) c (by simp)
    have hcm : c ≠ '-' := isDigit_ne hc (by decide)
    have hcp : c ≠ '+' := isDigit_ne hc (by decide)
    simp [str_to_integer, parseIntLit, hcm, hcp, h2]

/-- C8 counterexample.  The source removes the *first occurrence* of
`"days"` anywhere in the value, not the literal suffix: on `"days14"` the
code yields the integer 14, while the claim's strip-the-suffix reading
leaves `"days14"`, which is not an integer, and must fail. -/
theorem filed_after_not_suffix_strip :
    filed_after_value ("days14".data) = .ok 14 ∧
    spec_filed_after ("days14".data) = .error .parseError := by
  decide

/-- C8 amended.  `Filed after` normalisation removes the first occurrence
of the literal substring `"days"` (for well-formed values `<digits>days`
this is the suffix, yielding the integer day-count) and parses the
remainder as an integer, failing with a parse error on any value for
which this does not yield an integer. -/
theorem filed_after_first_occurrence (ds s : List Char) (e : PyError)
    (h1 : ds ≠ []) (h2 : ds.all Char.isDigit = true)
    (h3 : str_to_integer (replaceFirst daysChars s) = .error e) :
    filed_after_value (ds ++ daysChars) = .ok ((natOfDigits ds : ℕ) : Int) ∧
    filed_after_value s = .error e :=
  ⟨by rw [filed_after_value, replaceFirst_digits_append h2]; exact str_to_integer_digits h1 h2,
    h3⟩

/-- Witness for the amended C8: `"14days"` yields 14; `"N/A"` fails. -/
theorem filed_after_first_occurrence_witness :
    filed_after_value (['1', '4'] ++ daysChars) = .ok ((natOfDigits ['1', '4'] : ℕ) : Int) ∧
    filed_after_value ("N/A".data) = .error .parseError :=
  filed_after_first_occurrence ['1', '4'] ("N/A".data) .parseError (by decide) (by decide)
    (by decide)
